import Mathlib

/-!
# PoseMemorizer — verification of the pose-math core and GUI persistence

A shallow embedding of `pose_memorizer/core.py` and the pure parts of
`pose_memorizer/gui.py` (Maya pose capture/apply tool).

Numeric scene values (translations, Euler angles in degrees, quaternion
components, frame times) are modelled as rationals.  The Maya API calls the
code wraps (`MEulerRotation.asQuaternion`, `MQuaternion.asEulerRotation`,
`math.degrees`, `cmds.getAttr`, selection queries, keyframe queries) are
modelled as explicit parameters: an `MayaApi` record of opaque conversion
functions and a `Scene` record holding the attribute values the `cmds.getAttr`
calls would return.  Python dicts are modelled as association lists built with
an insert-or-overwrite operation that mirrors Python dict assignment, so that
key-collision behaviour of the dict comprehensions is preserved.
-/

namespace PoseMemorizer

/-- 3-vectors of rationals: translate values, Euler angle triples. -/
structure Vec3 where
  x : ℚ
  y : ℚ
  z : ℚ
  deriving DecidableEq, Repr

/-- Model of `maya.api.OpenMaya.MQuaternion`: four rational components,
stored in Maya's (x, y, z, w) component order. -/
structure Quat where
  x : ℚ
  y : ℚ
  z : ℚ
  w : ℚ
  deriving DecidableEq, Repr

namespace Quat

/-- `om2.MQuaternion()` — the identity quaternion (0, 0, 0, 1). -/
def one : Quat := ⟨0, 0, 0, 1⟩

/-- Quaternion product, modelling `MQuaternion.__mul__`. -/
def mul (p q : Quat) : Quat :=
  ⟨p.w * q.x + p.x * q.w + p.y * q.z - p.z * q.y,
   p.w * q.y - p.x * q.z + p.y * q.w + p.z * q.x,
   p.w * q.z + p.x * q.y - p.y * q.x + p.z * q.w,
   p.w * q.w - p.x * q.x - p.y * q.y - p.z * q.z⟩

instance : Mul Quat := ⟨mul⟩

instance : One Quat := ⟨one⟩

theorem mul_def (p q : Quat) : p * q = mul p q := rfl

/-- Squared norm of a quaternion. -/
def normSq (q : Quat) : ℚ := q.x * q.x + q.y * q.y + q.z * q.z + q.w * q.w

/-- Conjugate of a quaternion. -/
def conj (q : Quat) : Quat := ⟨-q.x, -q.y, -q.z, q.w⟩

/-- Model of `MQuaternion.inverse`: the multiplicative inverse
`conjugate / normSq` (equal to the conjugate on the unit quaternions the
tool feeds it). -/
def inverse (q : Quat) : Quat :=
  ⟨-q.x / q.normSq, -q.y / q.normSq, -q.z / q.normSq, q.w / q.normSq⟩

theorem ext_iff {p q : Quat} :
    p = q ↔ p.x = q.x ∧ p.y = q.y ∧ p.z = q.z ∧ p.w = q.w := by
  constructor
  · rintro rfl; exact ⟨rfl, rfl, rfl, rfl⟩
  · rcases p with ⟨a, b, c, d⟩
    rcases q with ⟨a', b', c', d'⟩
    rintro ⟨h1, h2, h3, h4⟩
    simp_all

theorem mul_assoc (p q r : Quat) : p * q * r = p * (q * r) := by
  simp only [mul_def, mul]
  exact ext_iff.2 ⟨by ring, by ring, by ring, by ring⟩

theorem one_mul (q : Quat) : (1 : Quat) * q = q := by
  rcases q with ⟨a, b, c, d⟩
  simp only [mul_def, mul, OfNat.ofNat, One.one, one]
  exact ext_iff.2 ⟨by ring, by ring, by ring, by ring⟩

theorem mul_one (q : Quat) : q * (1 : Quat) = q := by
  rcases q with ⟨a, b, c, d⟩
  simp only [mul_def, mul, OfNat.ofNat, One.one, one]
  exact ext_iff.2 ⟨by ring, by ring, by ring, by ring⟩

/-- On a unit quaternion, `inverse` is the conjugate. -/
theorem inverse_of_unit {q : Quat} (h : q.normSq = 1) : q.inverse = q.conj := by
  simp only [inverse, conj, h]
  exact ext_iff.2 ⟨by ring, by ring, by ring, by ring⟩

theorem inverse_mul_cancel {q : Quat} (h : q.normSq = 1) : q.inverse * q = 1 := by
  rw [inverse_of_unit h]
  rcases q with ⟨a, b, c, d⟩
  simp only [normSq] at h
  simp only [mul_def, mul, conj, OfNat.ofNat, One.one, one]
  exact ext_iff.2 ⟨by dsimp only; ring, by dsimp only; ring, by dsimp only; ring,
    by dsimp only; ring_nf; ring_nf at h; linarith⟩

theorem mul_inverse_cancel {q : Quat} (h : q.normSq = 1) : q * q.inverse = 1 := by
  rw [inverse_of_unit h]
  rcases q with ⟨a, b, c, d⟩
  simp only [normSq] at h
  simp only [mul_def, mul, conj, OfNat.ofNat, One.one, one]
  exact ext_iff.2 ⟨by dsimp only; ring, by dsimp only; ring, by dsimp only; ring,
    by dsimp only; ring_nf; ring_nf at h; linarith⟩

instance : Monoid Quat where
  mul_assoc := Quat.mul_assoc
  one_mul := Quat.one_mul
  mul_one := Quat.mul_one

/-- Conjugation cancellation: sandwiching `r` between `a, o` at capture and
between `a.inverse`, `io` at application recovers `r`, for any unit `a` and
any `io` with `o * io = 1`. -/
theorem inverse_sandwich {a o io : Quat} (r : Quat)
    (ha : a.normSq = 1) (ho : o * io = 1) :
    a.inverse * (a * r * o) * io = r := by
  have h1 : a.inverse * (a * r * o) * io = (a.inverse * a) * (r * (o * io)) := by
    simp only [mul_assoc]
  rw [h1, inverse_mul_cancel ha, ho]
  rw [Quat.one_mul, Quat.mul_one]

end Quat

/-! ## Python string primitives

`str.__contains__`, `str.replace` and `str.split` are modelled over character
lists with an explicit fuel argument (the string length) so that every
definition is structurally recursive and evaluates by kernel reduction.
Empty patterns do not occur in the tool (mirror tokens and the separators
":" and " : " are nonempty), and are given the harmless behaviour of
leaving the string unchanged / unsplit. -/

/-- Python `pat in s` (substring containment). -/
def strContains (s pat : String) : Bool :=
  decide (pat.toList <:+: s.toList)

/-- Fuel-indexed worker for `pyReplace`. -/
def replaceAux (pat rep : List Char) : ℕ → List Char → List Char
  | 0, s => s
  | _ + 1, [] => []
  | fuel + 1, c :: rest =>
    if pat.isPrefixOf (c :: rest) then
      rep ++ replaceAux pat rep fuel (rest.drop (pat.length - 1))
    else
      c :: replaceAux pat rep fuel rest

/-- Python `s.replace(pat, rep)`: replace every non-overlapping occurrence,
left to right. -/
def pyReplace (s pat rep : String) : String :=
  if pat = "" then s
  else (replaceAux pat.toList rep.toList s.toList.length s.toList).asString

/-- Fuel-indexed worker for `pySplit`; `acc` is the reversed current field. -/
def splitAux (sep : List Char) : ℕ → List Char → List Char → List String
  | 0, acc, s => [(acc.reverse ++ s).asString]
  | _ + 1, acc, [] => [acc.reverse.asString]
  | fuel + 1, acc, c :: rest =>
    if sep.isPrefixOf (c :: rest) then
      acc.reverse.asString :: splitAux sep fuel [] (rest.drop (sep.length - 1))
    else
      splitAux sep fuel (c :: acc) rest

/-- Python `s.split(sep)` for a nonempty separator. -/
def pySplit (s sep : String) : List String :=
  if sep = "" then [s]
  else splitAux sep.toList s.toList.length [] s.toList

/-- Python `s.lower()` (the tool only passes axis names "x"/"y"/"z" in
either case). -/
def pyLower (s : String) : String :=
  (s.toList.map Char.toLower).asString

/-- `name.split(":")[-1]` — the basename helper of `_convert_target_pose`. -/
def basename (name : String) : String :=
  (pySplit name ":").getLastD ""

/-! ## Python dict model

A Python dict is modelled as an association list with unique keys kept in
insertion order.  `dinsert` is dict assignment `d[k] = v` (overwrite in
place, else append); `dsetdefault` is `d.setdefault(k, v)` (keep the first
binding). -/

/-- Python `d[k] = v` on an association-list dict. -/
def dinsert {α : Type} (k : String) (v : α) (d : List (String × α)) :
    List (String × α) :=
  if d.any (fun p => p.1 == k) then
    d.map (fun p => if p.1 == k then (k, v) else p)
  else d ++ [(k, v)]

/-- Python `d.setdefault(k, v)` on an association-list dict. -/
def dsetdefault {α : Type} (k : String) (v : α) (d : List (String × α)) :
    List (String × α) :=
  if d.any (fun p => p.1 == k) then d else d ++ [(k, v)]

/-! ## Scene and Maya API model -/

/-- The transform-node attributes `core.py` reads through `cmds.getAttr` /
`cmds.attributeQuery`.  `jointOrient = none` models a node on which the
`jointOrient` attribute does not exist.  The six `lock*` flags model
`cmds.getAttr(..., lock=True)` on the individual channels. -/
structure TransformNode where
  translate : Vec3
  rotate : Vec3
  rotateOrder : ℕ
  rotateAxis : Vec3
  jointOrient : Option Vec3
  lockTranslateX : Bool
  lockTranslateY : Bool
  lockTranslateZ : Bool
  lockRotateX : Bool
  lockRotateY : Bool
  lockRotateZ : Bool

/-- The Maya state the tool queries: node attributes as a function of scene
time (`cmds.currentTime` edits move the evaluation point), the current time,
the selection (`cmds.ls(selection=True, transforms=True)`), the full
transform list (`cmds.ls(type="transform")`), node existence, and the
keyframe query of `get_pose_range` (`.error` models a raised exception,
`.ok none` models the `None` Maya returns when there are no keys). -/
structure Scene where
  attrsAt : ℚ → String → TransformNode
  currentTime : ℚ
  selection : List String
  allTransforms : List String
  objExists : String → Bool
  keyframeQuery : List String → ℚ × ℚ → Except Unit (Option (List ℚ))

/-- Attribute lookup at the scene's current time. -/
def Scene.attrs (s : Scene) : String → TransformNode :=
  s.attrsAt s.currentTime

/-- The opaque Maya math the tool wraps: `conv` is
`_convert_quaternion` (degrees → radians → `MEulerRotation(order).asQuaternion()`),
`asEuler` is `MQuaternion.asEulerRotation()` (a radian Euler triple), and
`deg` is `math.degrees`. -/
structure MayaApi where
  conv : Vec3 → ℕ → Quat
  asEuler : Quat → Vec3
  deg : ℚ → ℚ

/-- One stored pose entry: the captured `translate` triple and the
`MQuaternion` stored under `"rotate"`. -/
structure PoseParam where
  translate : Vec3
  rotate : Quat
  deriving DecidableEq, Repr

/-- A pose dict: node name → pose parameter. -/
abbrev Pose : Type := List (String × PoseParam)

/-! ## core.py definitions -/

/-- `PoseMemorizer._convert_quaternion`. -/
def convertQuaternion (api : MayaApi) (rotate : Vec3) (order : ℕ) : Quat :=
  api.conv rotate order

/-- `PoseMemorizer._make_mirror_matrix`: the translate sign triple and the
quaternion sign quadruple per mirror axis. -/
def makeMirrorMatrix : List (String × (Vec3 × (ℚ × ℚ × ℚ × ℚ))) :=
  [("x", (⟨-1, 1, 1⟩, (-1, 1, 1, -1))),
   ("y", (⟨1, -1, 1⟩, (1, -1, 1, -1))),
   ("z", (⟨1, 1, -1⟩, (1, 1, -1, -1)))]

/-- `PoseMemorizer._get_mirror_matrix`: case-insensitive lookup. -/
def getMirrorMatrix (mirror_axis : String) : Option (Vec3 × (ℚ × ℚ × ℚ × ℚ)) :=
  makeMirrorMatrix.lookup (pyLower mirror_axis)

/-- The `orient` quaternion of `get_quaternion` inside
`_make_pose_parameter`: identity unless the node has a `jointOrient`
attribute. -/
def orientQuat (api : MayaApi) (node : TransformNode) : Quat :=
  match node.jointOrient with
  | some jo => convertQuaternion api jo node.rotateOrder
  | none => Quat.one

/-- The `inv_orient` quaternion of `convert_matrix` /
`convert_mirror_matrix` inside `_get_translate_rotate`: identity unless the
node has a `jointOrient` attribute. -/
def invOrientQuat (api : MayaApi) (node : TransformNode) : Quat :=
  match node.jointOrient with
  | some jo => (convertQuaternion api jo node.rotateOrder).inverse
  | none => Quat.one

/-- `PoseMemorizer._make_pose_parameter` over an attribute lookup. -/
def makePoseParameter (api : MayaApi) (attrs : String → TransformNode)
    (nodes : List String) : Pose :=
  nodes.map fun n =>
    let node := attrs n
    let order := node.rotateOrder
    let rotate := convertQuaternion api node.rotate order
    let axis := convertQuaternion api node.rotateAxis order
    let orient := orientQuat api node
    (n, ⟨node.translate, axis * rotate * orient⟩)

/-- The mirror-name renaming block of `_convert_target_pose`
(`core.py` lines 59–71): keys containing `left` (checked first) have `left`
replaced by `right`, else keys containing `right` have `right` replaced by
`left`, else the key is kept; values are carried over unchanged. -/
def changePose (left right : String) (pose : Pose) : Pose :=
  pose.foldl (fun acc p =>
    if strContains p.1 left then dinsert (pyReplace p.1 left right) p.2 acc
    else if strContains p.1 right then dinsert (pyReplace p.1 right left) p.2 acc
    else dinsert p.1 p.2 acc) []

/-- `PoseMemorizer._convert_target_pose`.  Returns `none` exactly when
`mirror` is set and `mirror_name` has no " : " separator (the Python
`IndexError` on `split_name[1]`). -/
def convertTargetPose (s : Scene) (pose : Pose) (mirror : Bool)
    (mirror_name : String) (ns : Bool) : Option Pose :=
  let rest := fun (pose : Pose) =>
    let selTransforms := s.selection
    if selTransforms.isEmpty = false then
      if ns then
        pose.foldl (fun acc p =>
          if selTransforms.contains p.1 then dinsert p.1 p.2 acc else acc) []
      else
        let selTrans := selTransforms.foldl
          (fun acc t => dinsert (basename t) t acc) []
        pose.foldl (fun acc p =>
          match selTrans.lookup (basename p.1) with
          | some t => dinsert t p.2 acc
          | none => acc) []
    else
      if ns then
        pose.foldl (fun acc p =>
          if s.objExists p.1 then dinsert p.1 p.2 acc else acc) []
      else
        let poseByBasename := pose.foldl
          (fun acc p => dsetdefault (basename p.1) p.2 acc) []
        s.allTransforms.foldl (fun acc node =>
          match poseByBasename.lookup (basename node) with
          | some param => dinsert node param acc
          | none => acc) []
  if mirror then
    match pySplit mirror_name " : " with
    | left :: right :: _ => some (rest (changePose left right pose))
    | _ => none
  else some (rest pose)

/-- `convert_matrix` inside `_get_translate_rotate`: undo the rotate-axis and
joint-orient offsets by quaternion conjugation, then hand the result to
`asEulerRotation` and convert each component to degrees. -/
def convertMatrix (api : MayaApi) (attrs : String → TransformNode)
    (n : String) (parameter : PoseParam) : Vec3 × Vec3 :=
  let node := attrs n
  let order := node.rotateOrder
  let inv_axis := (convertQuaternion api node.rotateAxis order).inverse
  let inv_orient := invOrientQuat api node
  let e := api.asEuler (inv_axis * parameter.rotate * inv_orient)
  (parameter.translate, ⟨api.deg e.x, api.deg e.y, api.deg e.z⟩)

/-- Componentwise sign flip of a translate triple
(`[s * m for s, m in zip(src_translate, mirror_trans)]`). -/
def mirrorVec (v : Vec3) (m : Vec3) : Vec3 :=
  ⟨v.x * m.x, v.y * m.y, v.z * m.z⟩

/-- Componentwise sign flip of a stored quaternion
(`om2.MQuaternion([s * m for s, m in zip(src_rotate, mirror_qua)])`,
iterating the quaternion in (x, y, z, w) order). -/
def mirrorQuat (q : Quat) (m : ℚ × ℚ × ℚ × ℚ) : Quat :=
  ⟨q.x * m.1, q.y * m.2.1, q.z * m.2.2.1, q.w * m.2.2.2⟩

/-- `convert_mirror_matrix` inside `_get_translate_rotate`. -/
def convertMirrorMatrix (api : MayaApi) (attrs : String → TransformNode)
    (n : String) (parameter : PoseParam)
    (mirror_trans : Vec3) (mirror_qua : ℚ × ℚ × ℚ × ℚ) : Vec3 × Vec3 :=
  let node := attrs n
  let order := node.rotateOrder
  let inv_axis := (convertQuaternion api node.rotateAxis order).inverse
  let inv_orient := invOrientQuat api node
  let translate := mirrorVec parameter.translate mirror_trans
  let mirror_rot := mirrorQuat parameter.rotate mirror_qua
  let e := api.asEuler (inv_axis * mirror_rot * inv_orient)
  (translate, ⟨api.deg e.x, api.deg e.y, api.deg e.z⟩)

/-- `PoseMemorizer._get_translate_rotate`.  Returns `none` exactly when
`mirror` is set and the axis name is not "x"/"y"/"z" up to case (the Python
`TypeError` unpacking `None` from `_get_mirror_matrix`). -/
def getTranslateRotate (api : MayaApi) (attrs : String → TransformNode)
    (pose : Pose) (mirror : Bool) (mirror_axis : String) :
    Option (List (String × (Vec3 × Vec3))) :=
  if mirror then
    match getMirrorMatrix mirror_axis with
    | some (mirror_trans, mirror_qua) =>
      some (pose.map fun p =>
        (p.1, convertMirrorMatrix api attrs p.1 p.2 mirror_trans mirror_qua))
    | none => none
  else
    some (pose.map fun p => (p.1, convertMatrix api attrs p.1 p.2))

/-! ## Command emission (`_get_setkey_command`, `_get_setattr_command`)

The command strings are modelled as the list appended to `reslut` during the
loop; the returned MEL command joins them with ";". -/

/-- One iteration of the `_get_setkey_command` loop body: the six guarded
appends for a single node. -/
def setkeyNodeStep (attrs : String → TransformNode) (acc : List String)
    (p : String × (Vec3 × Vec3)) : List String :=
  let n := p.1
  let translate := p.2.1
  let rotate := p.2.2
  let node := attrs n
  let acc := if node.lockTranslateX = false then
    acc ++ ["setKeyframe -at tx -v " ++ toString translate.x ++ " -dd true " ++ n] else acc
  let acc := if node.lockTranslateY = false then
    acc ++ ["setKeyframe -at ty -v " ++ toString translate.y ++ " -dd true " ++ n] else acc
  let acc := if node.lockTranslateZ = false then
    acc ++ ["setKeyframe -at tz -v " ++ toString translate.z ++ " -dd true " ++ n] else acc
  let acc := if node.lockRotateX = false then
    acc ++ ["setKeyframe -at rx -v " ++ toString rotate.x ++ " -dd true " ++ n] else acc
  let acc := if node.lockRotateY = false then
    acc ++ ["setKeyframe -at ry -v " ++ toString rotate.y ++ " -dd true " ++ n] else acc
  let acc := if node.lockRotateZ = false then
    acc ++ ["setKeyframe -at rz -v " ++ toString rotate.z ++ " -dd true " ++ n] else acc
  acc

/-- One iteration of the `_get_setattr_command` loop body. -/
def setattrNodeStep (attrs : String → TransformNode) (acc : List String)
    (p : String × (Vec3 × Vec3)) : List String :=
  let n := p.1
  let translate := p.2.1
  let rotate := p.2.2
  let node := attrs n
  let acc := if node.lockTranslateX = false then
    acc ++ ["setAttr " ++ n ++ ".tx " ++ toString translate.x] else acc
  let acc := if node.lockTranslateY = false then
    acc ++ ["setAttr " ++ n ++ ".ty " ++ toString translate.y] else acc
  let acc := if node.lockTranslateZ = false then
    acc ++ ["setAttr " ++ n ++ ".tz " ++ toString translate.z] else acc
  let acc := if node.lockRotateX = false then
    acc ++ ["setAttr " ++ n ++ ".rx " ++ toString rotate.x] else acc
  let acc := if node.lockRotateY = false then
    acc ++ ["setAttr " ++ n ++ ".ry " ++ toString rotate.y] else acc
  let acc := if node.lockRotateZ = false then
    acc ++ ["setAttr " ++ n ++ ".rz " ++ toString rotate.z] else acc
  acc

/-- The `dgdirty` command appended after the loop. -/
def dgdirtyCommand (trans_rot : List (String × (Vec3 × Vec3))) : String :=
  "dgdirty " ++ String.intercalate " " (trans_rot.map (fun p => p.1))

/-- `PoseMemorizer._get_setkey_command`, before the final `";".join`. -/
def getSetkeyCommandList (attrs : String → TransformNode)
    (trans_rot : List (String × (Vec3 × Vec3))) : List String :=
  (trans_rot.foldl (setkeyNodeStep attrs) []) ++ [dgdirtyCommand trans_rot]

/-- `PoseMemorizer._get_setkey_command`. -/
def getSetkeyCommand (attrs : String → TransformNode)
    (trans_rot : List (String × (Vec3 × Vec3))) : String :=
  String.intercalate ";" (getSetkeyCommandList attrs trans_rot)

/-- `PoseMemorizer._get_setattr_command`, before the final `";".join`. -/
def getSetattrCommandList (attrs : String → TransformNode)
    (trans_rot : List (String × (Vec3 × Vec3))) : List String :=
  (trans_rot.foldl (setattrNodeStep attrs) []) ++ [dgdirtyCommand trans_rot]

/-- `PoseMemorizer._get_setattr_command`. -/
def getSetattrCommand (attrs : String → TransformNode)
    (trans_rot : List (String × (Vec3 × Vec3))) : String :=
  String.intercalate ";" (getSetattrCommandList attrs trans_rot)

/-- `PoseMemorizer.get_pose`: an empty `transform` argument falls back to the
current selection. -/
def getPose (api : MayaApi) (s : Scene) (transform : List String) : Pose :=
  let t := if transform.length = 0 then s.selection else transform
  makePoseParameter api s.attrs t

/-- `PoseMemorizer.apply_pose`, reduced to the MEL command string it passes
to `mel.eval` (the `refresh` calls are display-only).  `none` models the two
exception paths (`IndexError` on a malformed mirror name, `TypeError` on an
unknown mirror axis). -/
def applyPoseCommand (api : MayaApi) (s : Scene) (pose : Pose) (mirror : Bool)
    (mirror_name : String) (mirror_axis : String) (setkey : Bool) (ns : Bool) :
    Option String :=
  match convertTargetPose s pose mirror mirror_name ns with
  | none => none
  | some target_pose =>
    match getTranslateRotate api s.attrs target_pose mirror mirror_axis with
    | none => none
    | some pose_tr =>
      some (if setkey then getSetkeyCommand s.attrs pose_tr
            else getSetattrCommand s.attrs pose_tr)

/-! ## `get_pose_range` and `apply_pose_sequence`

Both drive the scene timeline under `try/finally`.  They are modelled as
functions returning the result together with the scene time after the call;
the per-frame body (a `cmds.currentTime` edit plus capture / command
evaluation, either of which may raise in Maya) is abstracted as a step
function returning `Except`. -/

/-- One `{"frame": .., "pose": ..}` entry of a captured range. -/
structure FramePose where
  frame : ℚ
  pose : Pose
  deriving DecidableEq, Repr

/-- Python `sorted(set(key_times))`. -/
def sortedSet (l : List ℚ) : List ℚ :=
  List.insertionSort (fun a b => a ≤ b) l.dedup

/-- The capture loop of `get_pose_range`: for each frame in order, set the
current time and capture; an exception aborts the loop. -/
def rangeLoop {E : Type} (step : ℚ → Except E Pose) :
    List ℚ → Except E (List FramePose)
  | [] => .ok []
  | f :: fs =>
    match step f with
    | .error e => .error e
    | .ok p =>
      match rangeLoop step fs with
      | .error e => .error e
      | .ok rest => .ok (⟨f, p⟩ :: rest)

/-- The argument defaulting at the top of `get_pose_range`: a missing or
empty `transform` argument falls back to the current selection. -/
def resolveTransform (s : Scene) (transform : Option (List String)) :
    List String :=
  match transform with
  | none => s.selection
  | some l => if l.length = 0 then s.selection else l

/-- `PoseMemorizer.get_pose_range` with the per-frame capture abstracted as
`step` (which receives the frame and the transform list).  The second
component is the scene's current time when the call returns: the `finally`
block always puts the saved time back. -/
def getPoseRangeRun {E : Type} (step : ℚ → List String → Except E Pose)
    (s : Scene) (start_frame end_frame : ℚ) (transform : Option (List String)) :
    Except E (List FramePose) × ℚ :=
  let t := resolveTransform s transform
  if t.length = 0 then (.ok [], s.currentTime)
  else
    match s.keyframeQuery t (start_frame, end_frame) with
    | .error _ => (.ok [], s.currentTime)
    | .ok none => (.ok [], s.currentTime)
    | .ok (some key_times) =>
      let frames := sortedSet key_times
      if frames.length = 0 then (.ok [], s.currentTime)
      else (rangeLoop (fun f => step f t) frames, s.currentTime)

/-- The concrete (non-raising) capture step: `cmds.currentTime(frame)`
followed by `_make_pose_parameter(transform)` evaluated at that frame. -/
def poseRangeStep (api : MayaApi) (s : Scene) :
    ℚ → List String → Except Empty Pose :=
  fun f t => .ok (makePoseParameter api (s.attrsAt f) t)

/-- `PoseMemorizer.get_pose_range`, the returned pose list. -/
def getPoseRange (api : MayaApi) (s : Scene) (start_frame end_frame : ℚ)
    (transform : Option (List String)) : List FramePose :=
  match (getPoseRangeRun (poseRangeStep api s) s start_frame end_frame transform).1 with
  | .ok l => l
  | .error e => e.elim

/-- One element of the `poses` argument of `apply_pose_sequence`:
`pose_data.get("frame")` and `pose_data.get("pose")`. -/
structure SeqEntry where
  frame : Option ℚ
  pose : Option Pose
  deriving DecidableEq, Repr

/-- The sort key `lambda x: x.get("frame", 0)`. -/
def seqKey (e : SeqEntry) : ℚ := e.frame.getD 0

/-- The loop body of `apply_pose_sequence`: entries with a missing or empty
pose are skipped; a present frame moves the current time; the per-entry
apply work (`_convert_target_pose`, `_get_translate_rotate`, `mel.eval`) is
abstracted as `applyStep`, whose exception aborts the loop. -/
def seqLoop {E : Type} (applyStep : SeqEntry → Except E Unit) :
    List SeqEntry → ℚ → Except E Unit × ℚ
  | [], time => (.ok (), time)
  | e :: rest, time =>
    match e.pose with
    | none => seqLoop applyStep rest time
    | some p =>
      if p.length = 0 then seqLoop applyStep rest time
      else
        let time1 := match e.frame with
          | some f => f
          | none => time
        match applyStep e with
        | .error err => (.error err, time1)
        | .ok _ => seqLoop applyStep rest time1

/-- `PoseMemorizer.apply_pose_sequence`: returns the loop result, the scene
time after the call (the `finally` block restores the saved time on every
path), and the order in which the `for` loop visits the stored poses. -/
def applyPoseSequenceRun {E : Type} (applyStep : SeqEntry → Except E Unit)
    (s : Scene) (poses : List SeqEntry) :
    Except E Unit × ℚ × List SeqEntry :=
  if poses.length = 0 then (.ok (), s.currentTime, [])
  else
    let sorted_poses := List.insertionSort (fun a b => seqKey a ≤ seqKey b) poses
    ((seqLoop applyStep sorted_poses s.currentTime).1, s.currentTime, sorted_poses)

/-! ## gui.py: pose-data serialization and the option file -/

/-- The value found under `"rotate"` in a pose entry on the GUI side:
an `om2.MQuaternion`, a JSON list/tuple, Python `None` (also covering a
missing key), or a value of any other type. -/
inductive RotVal
  | quat (q : Quat)
  | vals (l : List ℚ)
  | null
  | other
  deriving DecidableEq, Repr

/-- A GUI-side pose entry as `_serialize_pose_data` / `_deserialize_pose_data`
see it: `translate` is `parameter.get("translate")` (`none` = missing key),
`rotate` is `parameter.get("rotate")`. -/
structure GuiParam where
  translate : Option (List ℚ)
  rotate : RotVal
  deriving DecidableEq, Repr

/-- Python `value or default` for an optional list (both `None` and an empty
list are falsy). -/
def pyOrList (v : Option (List ℚ)) (dflt : List ℚ) : List ℚ :=
  match v with
  | none => dflt
  | some l => if l.length = 0 then dflt else l

/-- Per-entry body of `_serialize_pose_data`. -/
def serializeParam (p : GuiParam) : GuiParam :=
  let translate := pyOrList p.translate [0, 0, 0]
  let rotate_values : List ℚ :=
    match p.rotate with
    | .quat q => [q.x, q.y, q.z, q.w]
    | .vals l => if l.length = 4 then l.map (fun v => v) else [0, 0, 0, 1]
    | .null => [0, 0, 0, 1]
    | .other => [0, 0, 0, 1]
  let translate_values := translate.map (fun v => v)
  ⟨some translate_values, .vals rotate_values⟩

/-- `PoseMemorizerDockableWidget._serialize_pose_data`. -/
def serializePoseData (pose_data : List (String × GuiParam)) :
    List (String × GuiParam) :=
  pose_data.foldl (fun acc p => dinsert p.1 (serializeParam p.2) acc) []

/-- Per-entry body of `_deserialize_pose_data`. -/
def deserializeParam (p : GuiParam) : GuiParam :=
  let translate := pyOrList p.translate [0, 0, 0]
  let rotate_qua : Quat :=
    match p.rotate with
    | .vals l =>
      if l.length = 4 then
        ⟨l.getD 0 0, l.getD 1 0, l.getD 2 0, l.getD 3 0⟩
      else Quat.one
    | .quat q => q
    | .null => Quat.one
    | .other => Quat.one
  ⟨some (translate.map (fun v => v)), .quat rotate_qua⟩

/-- `PoseMemorizerDockableWidget._deserialize_pose_data`. -/
def deserializePoseData (pose_data : List (String × GuiParam)) :
    List (String × GuiParam) :=
  pose_data.foldl (fun acc p => dinsert p.1 (deserializeParam p.2) acc) []

/-- The Python exceptions `OptionFile.load` can let escape: the
`AttributeError` of `data.get("version")` on non-dict JSON, and the
`OSError` of `os.makedirs` in `_check_file_path`. -/
inductive PyError
  | attributeError
  | osError
  deriving DecidableEq, Repr

/-- What `OptionFile.load` can encounter on disk: no file, a file that
`open`/`json.load` raises on (caught by the `try`), a file whose JSON
content parses but is not an object (a list, string, number or null — on
which `data.get` raises outside the `try`), or a parsed JSON object. -/
inductive OptionFileState
  | missing
  | unreadable
  | parsedNonObject
  | parsedObject (data : List (String × String))
  deriving DecidableEq, Repr

/-- `data.get("version")` on the parsed JSON object. -/
def optionVersionOf (data : List (String × String)) : Option String :=
  data.lookup "version"

/-- `OptionFile.load`.  `mkdirOk = false` models `os.makedirs` failing in
`_check_file_path` (line 111, outside any `try`): the `OSError` escapes.
A parseable non-object file passes the `try` and then raises
`AttributeError` at `data.get("version")` (line 124, also outside the
`try`).  The remaining paths return `None` for a missing file, an
unparsable file, or a version mismatch, and the parsed object otherwise. -/
def optionFileLoad (current_version : String) (mkdirOk : Bool)
    (fs : OptionFileState) :
    Except PyError (Option (List (String × String))) :=
  if mkdirOk = false then .error .osError
  else
    match fs with
    | .missing => .ok none
    | .unreadable => .ok none
    | .parsedNonObject => .error .attributeError
    | .parsedObject data =>
      if optionVersionOf data = some current_version then .ok (some data)
      else .ok none

/-- A unit orient quaternion cancels against the `inv_orient` the
application path builds from the same `jointOrient` value. -/
theorem orient_mul_invOrient (api : MayaApi) (node : TransformNode)
    (h : (orientQuat api node).normSq = 1) :
    orientQuat api node * invOrientQuat api node = 1 := by
  unfold orientQuat invOrientQuat at *
  cases hj : node.jointOrient with
  | none => simp only [hj]; exact Quat.mul_one 1
  | some jo =>
    simp only [hj] at h ⊢
    exact Quat.mul_inverse_cancel h

/-- For a transform node whose `rotateOrder`, `rotateAxis` and
`jointOrient` values are the same at capture (`attrsC`) and at application
(`attrsA`), the quaternion conjugation of the apply path is exact: capture
stores `axisQ * rotateQ * orientQ`, application computes
`inverse(axisQ) * stored * inverse(orientQ)`, and the quaternion handed to
`asEulerRotation` equals the one the originally read rotate values convert
to.  The rotate-order defect of C1 (see
`capture_misapplied_for_non_xyz_order`) therefore lies entirely in the
Euler write-back, not in the quaternion algebra.  The axis and orient
quaternions are unit quaternions (`MEulerRotation.asQuaternion` outputs). -/
theorem applied_quaternion_equals_captured
    (api : MayaApi) (attrsC attrsA : String → TransformNode)
    (n : String) (ax : String)
    (hOrder : (attrsA n).rotateOrder = (attrsC n).rotateOrder)
    (hAxis : (attrsA n).rotateAxis = (attrsC n).rotateAxis)
    (hOrient : (attrsA n).jointOrient = (attrsC n).jointOrient)
    (hUnitAxis : (convertQuaternion api (attrsC n).rotateAxis
        (attrsC n).rotateOrder).normSq = 1)
    (hUnitOrient : (orientQuat api (attrsC n)).normSq = 1) :
    getTranslateRotate api attrsA (makePoseParameter api attrsC [n]) false ax =
      some [(n, ((attrsC n).translate,
        ⟨api.deg (api.asEuler (convertQuaternion api (attrsC n).rotate
            (attrsC n).rotateOrder)).x,
         api.deg (api.asEuler (convertQuaternion api (attrsC n).rotate
            (attrsC n).rotateOrder)).y,
         api.deg (api.asEuler (convertQuaternion api (attrsC n).rotate
            (attrsC n).rotateOrder)).z⟩))] := by
  have hinv : invOrientQuat api (attrsA n) = invOrientQuat api (attrsC n) := by
    unfold invOrientQuat convertQuaternion
    rw [hOrient, hOrder]
  have hkey : (convertQuaternion api (attrsA n).rotateAxis
        (attrsA n).rotateOrder).inverse *
      (convertQuaternion api (attrsC n).rotateAxis (attrsC n).rotateOrder *
        convertQuaternion api (attrsC n).rotate (attrsC n).rotateOrder *
        orientQuat api (attrsC n)) *
      invOrientQuat api (attrsA n) =
      convertQuaternion api (attrsC n).rotate (attrsC n).rotateOrder := by
    rw [hAxis, hOrder, hinv]
    exact Quat.inverse_sandwich _ hUnitAxis
      (orient_mul_invOrient api (attrsC n) hUnitOrient)
  simp only [getTranslateRotate, makePoseParameter, List.map, convertMatrix,
    Bool.false_eq_true, if_false]
  rw [hkey]

/-! ## Concrete fixtures used by the evaluation witnesses -/

/-- A concrete stand-in for the Maya conversion API: every nonzero Euler
triple maps to the unit quaternion (3/5, 0, 0, 4/5), the zero triple to the
identity; `asEuler` reads off the vector part; `deg` scales by 180. -/
def testApi : MayaApi where
  conv := fun v _ => if v = ⟨0, 0, 0⟩ then Quat.one else ⟨3/5, 0, 0, 4/5⟩
  asEuler := fun q => ⟨q.x, q.y, q.z⟩
  deg := fun r => r * 180

/-- Capture-time attributes of the test joint. -/
def testNodeC : TransformNode where
  translate := ⟨1, 2, 3⟩
  rotate := ⟨30, 0, 0⟩
  rotateOrder := 2
  rotateAxis := ⟨0, 0, 90⟩
  jointOrient := some ⟨10, 20, 30⟩
  lockTranslateX := false
  lockTranslateY := false
  lockTranslateZ := false
  lockRotateX := false
  lockRotateY := false
  lockRotateZ := false

/-- Application-time attributes: same `rotateOrder`, `rotateAxis` and
`jointOrient` as at capture, different translate/rotate values and one
locked channel. -/
def testNodeA : TransformNode :=
  { testNodeC with
    translate := ⟨7, 7, 7⟩
    rotate := ⟨0, 0, 0⟩
    lockRotateY := true }

def testAttrsC : String → TransformNode := fun _ => testNodeC

def testAttrsA : String → TransformNode := fun _ => testNodeA

/-- Evaluation of `applied_quaternion_equals_captured` at the test joint. -/
theorem applied_quaternion_equals_captured_witness :
    getTranslateRotate testApi testAttrsA
        (makePoseParameter testApi testAttrsC ["joint1"]) false "x" =
      some [("joint1", (⟨1, 2, 3⟩, ⟨108, 0, 0⟩))] :=
  (applied_quaternion_equals_captured testApi testAttrsC testAttrsA
    "joint1" "x" rfl rfl rfl
    (by norm_num [convertQuaternion, testApi, testAttrsC, testNodeC, Quat.normSq])
    (by norm_num [orientQuat, convertQuaternion, testApi, testAttrsC, testNodeC,
      Quat.normSq])).trans
    (by norm_num [testApi, testAttrsC, testNodeC, convertQuaternion])

/-! ## Association-list dict lemmas -/

/-- Inserting a fresh key appends. -/
theorem dinsert_not_mem {α : Type} (k : String) (v : α)
    (d : List (String × α)) (h : ∀ q ∈ d, q.1 ≠ k) :
    dinsert k v d = d ++ [(k, v)] := by
  unfold dinsert
  have hfalse : (d.any (fun p => p.1 == k)) = false := by
    simp only [List.any_eq_false]
    intro p hp
    simpa using h p hp
  simp [hfalse]

/-- One guarded dict insert: insert the produced pair, if any. -/
def dstep {α : Type} (acc : List (String × α)) (q : Option (String × α)) :
    List (String × α) :=
  match q with
  | some q => dinsert q.1 q.2 acc
  | none => acc

/-- A left fold of guarded dict inserts whose produced keys are fresh and
pairwise distinct builds `acc ++ l.filterMap g`. -/
theorem foldl_dinsert_eq {β α : Type} (g : β → Option (String × α))
    (l : List β) :
    ∀ acc : List (String × α),
    (∀ p ∈ l, ∀ q, g p = some q → ∀ r ∈ acc, r.1 ≠ q.1) →
    ((l.filterMap g).map (fun p => p.1)).Nodup →
    l.foldl (fun acc p => dstep acc (g p)) acc = acc ++ l.filterMap g := by
  induction l with
  | nil => intro acc _ _; simp
  | cons p t ih =>
    intro acc hdisj hnodup
    cases hg : g p with
    | none =>
      simp only [List.foldl_cons, hg]
      rw [show dstep acc none = acc from rfl]
      rw [ih acc (fun p' hp' => hdisj p' (List.mem_cons_of_mem p hp'))
        (by simpa [List.filterMap_cons, hg] using hnodup)]
      simp [List.filterMap_cons, hg]
    | some q =>
      simp only [List.foldl_cons, hg]
      rw [show dstep acc (some q) = dinsert q.1 q.2 acc from rfl]
      rw [dinsert_not_mem q.1 q.2 acc
        (fun r hr => hdisj p (List.mem_cons_self p t) q hg r hr)]
      have hq_fresh : ∀ p' ∈ t, ∀ q', g p' = some q' → q.1 ≠ q'.1 := by
        intro p' hp' q' hg'
        have hmem : q' ∈ t.filterMap g := List.mem_filterMap.2 ⟨p', hp', hg'⟩
        have := hnodup
        rw [List.filterMap_cons, hg, List.map_cons, List.nodup_cons] at this
        intro he
        exact this.1 (he ▸ List.mem_map_of_mem (fun p => p.1) hmem)
      rw [ih (acc ++ [(q.1, q.2)])
        (by
          intro p' hp' q' hg' r hr
          rcases List.mem_append.1 hr with hr | hr
          · exact hdisj p' (List.mem_cons_of_mem p hp') q' hg' r hr
          · have : r = q := by simpa using hr
            subst this
            exact hq_fresh p' hp' q' hg')
        (by
          have := hnodup
          rw [List.filterMap_cons, hg, List.map_cons, List.nodup_cons] at this
          exact this.2)]
      simp [List.filterMap_cons, hg]

/-! ## C3: mirror-name key remapping -/

/-- The key renaming the mirror block of `_convert_target_pose` performs,
as the claim states it: a key containing `left` (checked first) has `left`
replaced by `right`; else a key containing `right` has `right` replaced by
`left`; else the key is unchanged. -/
def mKey (left right : String) (n : String) : String :=
  if strContains n left then pyReplace n left right
  else if strContains n right then pyReplace n right left
  else n

/-- `changePose` is the `mKey` insert fold. -/
theorem changePose_eq_foldl (left right : String) (pose : Pose) :
    changePose left right pose =
      pose.foldl (fun acc p => dinsert (mKey left right p.1) p.2 acc) [] := by
  unfold changePose
  refine List.foldl_ext _ _ [] ?_
  intro acc p _
  unfold mKey
  by_cases h1 : strContains p.1 left
  · simp [h1]
  · by_cases h2 : strContains p.1 right <;> simp [h1, h2]

/-- `filterMap` of a total function is `map`. -/
theorem filterMap_some_map {α β : Type} (f : α → β) (l : List α) :
    l.filterMap (fun a => some (f a)) = l.map f := by
  induction l with
  | nil => rfl
  | cons a t ih => simp [List.filterMap_cons, ih]

/-- **C3.** With mirroring enabled and a mirror-name pair parsed from
"left : right", the mirror block of `_convert_target_pose` remaps every
pose key by `mKey` — a key containing `left` (checked first) has `left`
substituted by `right`, else a key containing `right` has `right`
substituted by `left`, else the key is kept — leaving every pose parameter
unchanged; and `_convert_target_pose` with `mirror` behaves as
`_convert_target_pose` without `mirror` on the renamed pose.  The renamed
keys are assumed pairwise distinct (otherwise the Python dict would drop
entries). -/
theorem mirror_name_remap (s : Scene) (ns : Bool)
    (left right mirror_name : String) (pose : Pose) (parts : List String)
    (hparse : pySplit mirror_name " : " = left :: right :: parts)
    (hn : (pose.map (fun p => mKey left right p.1)).Nodup) :
    changePose left right pose =
      pose.map (fun p => (mKey left right p.1, p.2)) ∧
    convertTargetPose s pose true mirror_name ns =
      convertTargetPose s (changePose left right pose) false mirror_name ns := by
  constructor
  · rw [changePose_eq_foldl]
    have hmap := filterMap_some_map (fun p => (mKey left right p.1, p.2)) pose
    have := foldl_dinsert_eq (fun p => some (mKey left right p.1, p.2)) pose []
      (by intro p _ q _ r hr; simp at hr)
      (by
        rw [hmap, List.map_map]
        exact hn)
    rw [hmap] at this
    simpa using this
  · unfold convertTargetPose
    rw [hparse]
    simp

/-- A concrete scene used by the evaluation witnesses. -/
def testScene : Scene where
  attrsAt := fun _ _ => testNodeC
  currentTime := 10
  selection := ["grp|L_arm"]
  allTransforms := ["grp|L_arm", "spine"]
  objExists := fun n => List.contains ["grp|L_arm", "spine"] n
  keyframeQuery := fun _ _ => .ok (some [12, 10, 12, 11])

def testParamA : PoseParam := ⟨⟨1, 0, 0⟩, ⟨0, 0, 0, 1⟩⟩

def testParamB : PoseParam := ⟨⟨0, 2, 0⟩, ⟨1, 0, 0, 0⟩⟩

def testParamC : PoseParam := ⟨⟨0, 0, 3⟩, ⟨0, 1, 0, 0⟩⟩

def testPose3 : Pose :=
  [("L_arm", testParamA), ("R_leg", testParamB), ("spine", testParamC)]

/-- Evaluation witness for C3 on a three-entry pose. -/
theorem mirror_name_remap_witness :
    changePose "L_" "R_" testPose3 =
      [("R_arm", testParamA), ("L_leg", testParamB), ("spine", testParamC)] ∧
    convertTargetPose testScene testPose3 true "L_ : R_" false =
      convertTargetPose testScene (changePose "L_" "R_" testPose3) false
        "L_ : R_" false :=
  ⟨((mirror_name_remap testScene false "L_" "R_" "L_ : R_" testPose3 []
      (by decide) (by decide)).1).trans (by decide),
   (mirror_name_remap testScene false "L_" "R_" "L_ : R_" testPose3 []
      (by decide) (by decide)).2⟩

/-! ## C2: mirror sign flips -/

/-- The tail of `convert_mirror_matrix` after the sign flips: undo rotate-axis
and joint-orient by conjugation, convert to a degree Euler triple.  Used to
state C2's claim about the quaternion actually fed into that conversion. -/
def eulerDegOf (api : MayaApi) (attrs : String → TransformNode)
    (n : String) (q : Quat) : Vec3 :=
  let node := attrs n
  let e := api.asEuler
    ((convertQuaternion api node.rotateAxis node.rotateOrder).inverse * q *
      invOrientQuat api node)
  ⟨api.deg e.x, api.deg e.y, api.deg e.z⟩

/-- **C2.** With mirroring enabled, `_get_translate_rotate` flips each pose
entry componentwise according to the mirror axis, matched case-insensitively:
axis "x" multiplies the translation by (-1, 1, 1) and the stored quaternion
(x, y, z, w) by (-1, 1, 1, -1); axis "y" by (1, -1, 1) and (1, -1, 1, -1);
axis "z" by (1, 1, -1) and (1, 1, -1, -1); the flipped quaternion is then
handed to the axis/orient conjugation and Euler conversion. -/
theorem mirror_axis_sign_flips (api : MayaApi)
    (attrs : String → TransformNode) (pose : Pose) (ax : String) :
    (pyLower ax = "x" → getTranslateRotate api attrs pose true ax =
      some (pose.map fun p => (p.1,
        (⟨-p.2.translate.x, p.2.translate.y, p.2.translate.z⟩,
         eulerDegOf api attrs p.1
           ⟨-p.2.rotate.x, p.2.rotate.y, p.2.rotate.z, -p.2.rotate.w⟩)))) ∧
    (pyLower ax = "y" → getTranslateRotate api attrs pose true ax =
      some (pose.map fun p => (p.1,
        (⟨p.2.translate.x, -p.2.translate.y, p.2.translate.z⟩,
         eulerDegOf api attrs p.1
           ⟨p.2.rotate.x, -p.2.rotate.y, p.2.rotate.z, -p.2.rotate.w⟩)))) ∧
    (pyLower ax = "z" → getTranslateRotate api attrs pose true ax =
      some (pose.map fun p => (p.1,
        (⟨p.2.translate.x, p.2.translate.y, -p.2.translate.z⟩,
         eulerDegOf api attrs p.1
           ⟨p.2.rotate.x, p.2.rotate.y, -p.2.rotate.z, -p.2.rotate.w⟩)))) := by
  refine ⟨fun h => ?_, fun h => ?_, fun h => ?_⟩ <;>
  · have hm : getMirrorMatrix ax = makeMirrorMatrix.lookup (pyLower ax) := rfl
    rw [h] at hm
    simp only [makeMirrorMatrix, List.lookup] at hm
    simp only [getTranslateRotate, hm]
    refine congrArg some (List.map_congr_left fun p _ => ?_)
    simp only [convertMirrorMatrix, eulerDegOf, mirrorVec, mirrorQuat]
    norm_num

/-- Evaluation witness for C2: axis given as uppercase "X". -/
theorem mirror_axis_sign_flips_witness :
    getTranslateRotate testApi testAttrsC testPose3 true "X" =
      some [("L_arm", (⟨-1, 0, 0⟩, ⟨864/5, 0, 0⟩)),
            ("R_leg", (⟨0, 2, 0⟩, ⟨-252/5, 0, 0⟩)),
            ("spine", (⟨0, 0, 3⟩, ⟨0, 180, 0⟩))] :=
  ((mirror_axis_sign_flips testApi testAttrsC testPose3 "X").1 (by decide)).trans
    (by norm_num [testPose3, testParamA, testParamB, testParamC, testAttrsC,
      testNodeC, testApi, eulerDegOf, convertQuaternion, invOrientQuat,
      Quat.inverse, Quat.normSq, Quat.mul_def, Quat.mul, Quat.one])

/-! ## C4: namespace matching -/

/-- `filterMap` of a conditional `some` is `filter`. -/
theorem filterMap_guard_filter {α : Type} (c : α → Bool) (l : List α) :
    l.filterMap (fun a => if c a then some a else none) = l.filter c := by
  induction l with
  | nil => rfl
  | cons a t ih =>
    by_cases h : c a <;> simp [List.filterMap_cons, List.filter_cons, h, ih]

/-- Looking up a key in the dict `{f t : t for t in l}` (no basename
collisions) finds the first list element whose `f`-image is the key. -/
theorem lookup_map_eq_find {α : Type} (f : α → String) (l : List α)
    (k : String) :
    (l.map (fun t => (f t, t))).lookup k = l.find? (fun t => f t == k) := by
  induction l with
  | nil => rfl
  | cons t ts ih =>
    simp only [List.map_cons, List.lookup, List.find?]
    by_cases h : f t = k
    · simp [h]
    · have h1 : (k == f t) = false := by simpa using fun he => h he.symm
      have h2 : (f t == k) = false := by simpa using h
      rw [h1, h2]
      exact ih

/-- The selection dict `{basename(t): t for t in sel_transforms}` is a plain
map when the selected basenames are pairwise distinct. -/
theorem sel_dict_eq_map (sel : List String)
    (hbn : (sel.map basename).Nodup) :
    sel.foldl (fun acc t => dinsert (basename t) t acc) [] =
      sel.map (fun t => (basename t, t)) := by
  have hb := filterMap_some_map (fun t => (basename t, t)) sel
  have := foldl_dinsert_eq (fun t => some (basename t, t)) sel []
    (by intro p _ q _ r hr; simp at hr)
    (by rw [hb, List.map_map]; exact hbn)
  rw [hb] at this
  simpa using this

/-- **C4.** With at least one transform selected: when namespace matching is
on, `_convert_target_pose` keeps exactly the stored entries whose full name
is among the selected transforms, under their own name; when it is off, each
stored entry is retargeted to the selected transform whose basename equals
the stored name's basename (selected basenames assumed distinct), and
entries whose basename matches no selected transform are dropped. -/
theorem namespace_matching (s : Scene) (pose : Pose) (mirror_name : String)
    (hsel : s.selection ≠ []) :
    ((pose.map (fun p => p.1)).Nodup →
      convertTargetPose s pose false mirror_name true =
        some (pose.filter (fun p => s.selection.contains p.1))) ∧
    ((s.selection.map basename).Nodup →
      ((pose.filterMap (fun p =>
          (s.selection.find? (fun t => basename t == basename p.1)).map
            (fun t => (t, p.2)))).map (fun p => p.1)).Nodup →
      convertTargetPose s pose false mirror_name false =
        some (pose.filterMap (fun p =>
          (s.selection.find? (fun t => basename t == basename p.1)).map
            (fun t => (t, p.2))))) := by
  have hne : s.selection.isEmpty = false := by
    cases hzz : s.selection with
    | nil => exact absurd hzz hsel
    | cons a t => rfl
  constructor
  · intro hkeys
    simp only [convertTargetPose, hne, Bool.false_eq_true, if_false, if_true]
    refine congrArg some ?_
    have hfold := List.foldl_ext
      (fun acc p => if s.selection.contains p.1 then dinsert p.1 p.2 acc else acc)
      (fun (acc : Pose) p =>
        dstep acc (if s.selection.contains p.1 then some p else none))
      ([] : Pose) (l := pose)
      (by
        intro acc p _
        dsimp only
        cases h : s.selection.contains p.1 <;> rfl)
    rw [hfold]
    have := foldl_dinsert_eq
      (fun p => if s.selection.contains p.1 then some p else none) pose []
      (by intro p _ q _ r hr; simp at hr)
      (by
        rw [filterMap_guard_filter]
        refine List.Nodup.sublist ?_ hkeys
        exact (List.filter_sublist pose).map (fun p => p.1))
    rw [this, filterMap_guard_filter]
    simp
  · intro hbn htgt
    simp only [convertTargetPose, hne, Bool.false_eq_true, if_false, if_true]
    refine congrArg some ?_
    rw [sel_dict_eq_map s.selection hbn]
    have hfold := List.foldl_ext
      (fun (acc : Pose) p =>
        match (s.selection.map (fun t => (basename t, t))).lookup (basename p.1) with
        | some t => dinsert t p.2 acc
        | none => acc)
      (fun (acc : Pose) p =>
        dstep acc ((s.selection.find? (fun t => basename t == basename p.1)).map
          (fun t => (t, p.2))))
      ([] : Pose) (l := pose)
      (by
        intro acc p _
        dsimp only
        rw [lookup_map_eq_find]
        cases hf : s.selection.find? (fun t => basename t == basename p.1) <;>
          simp [hf, dstep])
    rw [hfold]
    have := foldl_dinsert_eq
      (fun p => (s.selection.find? (fun t => basename t == basename p.1)).map
        (fun t => (t, p.2))) pose []
      (by intro p _ q _ r hr; simp at hr)
      htgt
    rw [this]
    simp

/-- A scene with a namespaced selection for the C4 witness. -/
def testSceneNS : Scene := { testScene with selection := ["rig:arm", "leg"] }

/-- Evaluation witness for C4: namespace matching on keeps matching full
names; namespace matching off retargets by basename and drops the rest. -/
theorem namespace_matching_witness :
    convertTargetPose testSceneNS
        [("rig:arm", testParamA), ("leg", testParamB), ("torso", testParamC)]
        false "L : R" true =
      some [("rig:arm", testParamA), ("leg", testParamB)] ∧
    convertTargetPose testSceneNS
        [("other:arm", testParamA), ("torso", testParamB)]
        false "L : R" false =
      some [("rig:arm", testParamA)] :=
  ⟨((namespace_matching testSceneNS
      [("rig:arm", testParamA), ("leg", testParamB), ("torso", testParamC)]
      "L : R" (by decide)).1 (by decide)).trans (by decide),
   ((namespace_matching testSceneNS
      [("other:arm", testParamA), ("torso", testParamB)]
      "L : R" (by decide)).2 (by decide) (by decide)).trans (by decide)⟩

/-! ## C5: one write command per unlocked channel -/

/-- The claim-side shape of channel emission: a locked channel emits no
command, an unlocked one emits exactly its single write command. -/
def writeCmds (lock : Bool) (cmd : String) : List String :=
  if lock then [] else [cmd]

/-- The six per-channel `setKeyframe` commands a single node contributes. -/
def setkeyNodeCmds (attrs : String → TransformNode)
    (p : String × (Vec3 × Vec3)) : List String :=
  let n := p.1
  let translate := p.2.1
  let rotate := p.2.2
  let node := attrs n
  writeCmds node.lockTranslateX
      ("setKeyframe -at tx -v " ++ toString translate.x ++ " -dd true " ++ n) ++
    writeCmds node.lockTranslateY
      ("setKeyframe -at ty -v " ++ toString translate.y ++ " -dd true " ++ n) ++
    writeCmds node.lockTranslateZ
      ("setKeyframe -at tz -v " ++ toString translate.z ++ " -dd true " ++ n) ++
    writeCmds node.lockRotateX
      ("setKeyframe -at rx -v " ++ toString rotate.x ++ " -dd true " ++ n) ++
    writeCmds node.lockRotateY
      ("setKeyframe -at ry -v " ++ toString rotate.y ++ " -dd true " ++ n) ++
    writeCmds node.lockRotateZ
      ("setKeyframe -at rz -v " ++ toString rotate.z ++ " -dd true " ++ n)

/-- The six per-channel `setAttr` commands a single node contributes. -/
def setattrNodeCmds (attrs : String → TransformNode)
    (p : String × (Vec3 × Vec3)) : List String :=
  let n := p.1
  let translate := p.2.1
  let rotate := p.2.2
  let node := attrs n
  writeCmds node.lockTranslateX
      ("setAttr " ++ n ++ ".tx " ++ toString translate.x) ++
    writeCmds node.lockTranslateY
      ("setAttr " ++ n ++ ".ty " ++ toString translate.y) ++
    writeCmds node.lockTranslateZ
      ("setAttr " ++ n ++ ".tz " ++ toString translate.z) ++
    writeCmds node.lockRotateX
      ("setAttr " ++ n ++ ".rx " ++ toString rotate.x) ++
    writeCmds node.lockRotateY
      ("setAttr " ++ n ++ ".ry " ++ toString rotate.y) ++
    writeCmds node.lockRotateZ
      ("setAttr " ++ n ++ ".rz " ++ toString rotate.z)

/-- The `_convert_target_pose` / `_get_translate_rotate` pipeline of
`apply_pose`, before command generation. -/
def applyPoseTr (api : MayaApi) (s : Scene) (pose : Pose) (mirror : Bool)
    (mirror_name : String) (mirror_axis : String) (ns : Bool) :
    Option (List (String × (Vec3 × Vec3))) :=
  match convertTargetPose s pose mirror mirror_name ns with
  | none => none
  | some target_pose => getTranslateRotate api s.attrs target_pose mirror mirror_axis

/-- One loop iteration appends exactly the node's channel commands. -/
theorem setkeyNodeStep_eq (attrs : String → TransformNode)
    (acc : List String) (p : String × (Vec3 × Vec3)) :
    setkeyNodeStep attrs acc p = acc ++ setkeyNodeCmds attrs p := by
  simp only [setkeyNodeStep, setkeyNodeCmds, writeCmds]
  cases (attrs p.1).lockTranslateX <;> cases (attrs p.1).lockTranslateY <;>
    cases (attrs p.1).lockTranslateZ <;> cases (attrs p.1).lockRotateX <;>
    cases (attrs p.1).lockRotateY <;> cases (attrs p.1).lockRotateZ <;>
    simp [List.append_assoc]

/-- One loop iteration appends exactly the node's channel commands. -/
theorem setattrNodeStep_eq (attrs : String → TransformNode)
    (acc : List String) (p : String × (Vec3 × Vec3)) :
    setattrNodeStep attrs acc p = acc ++ setattrNodeCmds attrs p := by
  simp only [setattrNodeStep, setattrNodeCmds, writeCmds]
  cases (attrs p.1).lockTranslateX <;> cases (attrs p.1).lockTranslateY <;>
    cases (attrs p.1).lockTranslateZ <;> cases (attrs p.1).lockRotateX <;>
    cases (attrs p.1).lockRotateY <;> cases (attrs p.1).lockRotateZ <;>
    simp [List.append_assoc]

/-- A fold of per-element appends is the flattened map. -/
theorem foldl_append_bind {α β : Type} (f : List β → α → List β)
    (g : α → List β) (hf : ∀ acc p, f acc p = acc ++ g p) (l : List α) :
    ∀ acc, l.foldl f acc = acc ++ l.flatMap g := by
  induction l with
  | nil => intro acc; simp
  | cons p t ih =>
    intro acc
    rw [List.foldl_cons, hf, ih]
    simp [List.append_assoc]

/-- A string starting with `root` keeps that prefix under appends. -/
theorem starts_exists_rest (root s t : String) (h : ∃ r0, s = root ++ r0) :
    ∃ rest, s ++ t = root ++ rest := by
  rcases h with ⟨r0, rfl⟩
  exact ⟨r0 ++ t, by rw [String.append_assoc]⟩

/-- Membership in a channel's command list forces the channel's command. -/
theorem mem_writeCmds {lock : Bool} {c cmd : String}
    (h : c ∈ writeCmds lock cmd) : c = cmd := by
  unfold writeCmds at h
  split at h
  · simp at h
  · simpa using h

/-- **C5.** For every target node and each of the six channels tx, ty, tz,
rx, ry, rz, the command string `apply_pose` evaluates contains exactly one
write command when the channel is unlocked and none when it is locked
(`writeCmds` is one command or nothing per channel), followed by the single
`dgdirty` command; the write commands are `setKeyframe` commands when
`setkey` is true and `setAttr` commands when it is false. -/
theorem apply_pose_channel_commands (attrs : String → TransformNode) :
    (∀ tr, getSetkeyCommandList attrs tr =
      tr.flatMap (fun p => setkeyNodeCmds attrs p) ++ [dgdirtyCommand tr]) ∧
    (∀ tr, getSetattrCommandList attrs tr =
      tr.flatMap (fun p => setattrNodeCmds attrs p) ++ [dgdirtyCommand tr]) ∧
    (∀ p c, c ∈ setkeyNodeCmds attrs p → ∃ rest, c = "setKeyframe" ++ rest) ∧
    (∀ p c, c ∈ setattrNodeCmds attrs p → ∃ rest, c = "setAttr" ++ rest) ∧
    (∀ api s pose mirror mirror_name mirror_axis setkey ns,
      applyPoseCommand api s pose mirror mirror_name mirror_axis setkey ns =
        (applyPoseTr api s pose mirror mirror_name mirror_axis ns).map
          (fun tr => if setkey then getSetkeyCommand s.attrs tr
            else getSetattrCommand s.attrs tr)) := by
  refine ⟨?_, ?_, ?_, ?_, ?_⟩
  · intro tr
    unfold getSetkeyCommandList
    rw [foldl_append_bind (setkeyNodeStep attrs) (fun p => setkeyNodeCmds attrs p)
      (setkeyNodeStep_eq attrs) tr []]
    simp
  · intro tr
    unfold getSetattrCommandList
    rw [foldl_append_bind (setattrNodeStep attrs) (fun p => setattrNodeCmds attrs p)
      (setattrNodeStep_eq attrs) tr []]
    simp
  · intro p c hc
    simp only [setkeyNodeCmds, List.mem_append] at hc
    rcases hc with ((((hc | hc) | hc) | hc) | hc) | hc
    · obtain rfl := mem_writeCmds hc
      exact starts_exists_rest _ _ _ (starts_exists_rest _ _ _
        (starts_exists_rest _ _ _ ⟨" -at tx -v ", rfl⟩))
    · obtain rfl := mem_writeCmds hc
      exact starts_exists_rest _ _ _ (starts_exists_rest _ _ _
        (starts_exists_rest _ _ _ ⟨" -at ty -v ", rfl⟩))
    · obtain rfl := mem_writeCmds hc
      exact starts_exists_rest _ _ _ (starts_exists_rest _ _ _
        (starts_exists_rest _ _ _ ⟨" -at tz -v ", rfl⟩))
    · obtain rfl := mem_writeCmds hc
      exact starts_exists_rest _ _ _ (starts_exists_rest _ _ _
        (starts_exists_rest _ _ _ ⟨" -at rx -v ", rfl⟩))
    · obtain rfl := mem_writeCmds hc
      exact starts_exists_rest _ _ _ (starts_exists_rest _ _ _
        (starts_exists_rest _ _ _ ⟨" -at ry -v ", rfl⟩))
    · obtain rfl := mem_writeCmds hc
      exact starts_exists_rest _ _ _ (starts_exists_rest _ _ _
        (starts_exists_rest _ _ _ ⟨" -at rz -v ", rfl⟩))
  · intro p c hc
    simp only [setattrNodeCmds, List.mem_append] at hc
    rcases hc with ((((hc | hc) | hc) | hc) | hc) | hc <;>
      obtain rfl := mem_writeCmds hc <;>
      exact starts_exists_rest _ _ _ (starts_exists_rest _ _ _
        (starts_exists_rest _ _ _ ⟨" ", rfl⟩))
  · intro api s pose mirror mirror_name mirror_axis setkey ns
    unfold applyPoseCommand applyPoseTr
    cases convertTargetPose s pose mirror mirror_name ns with
    | none => rfl
    | some tp =>
      cases hgt : getTranslateRotate api s.attrs tp mirror mirror_axis with
      | none => simp [hgt]
      | some tr => simp [hgt]

/-- Evaluation witness for C5: one node with `rotateY` locked emits five
write commands (none for ry) plus `dgdirty`, as `setKeyframe` or `setAttr`
commands according to `setkey`. -/
theorem apply_pose_channel_commands_witness :
    getSetkeyCommandList testAttrsA [("joint1", (⟨1, 2, 3⟩, ⟨4, 5, 6⟩))] =
      ["setKeyframe -at tx -v 1 -dd true joint1",
       "setKeyframe -at ty -v 2 -dd true joint1",
       "setKeyframe -at tz -v 3 -dd true joint1",
       "setKeyframe -at rx -v 4 -dd true joint1",
       "setKeyframe -at rz -v 6 -dd true joint1",
       "dgdirty joint1"] ∧
    getSetattrCommandList testAttrsA [("joint1", (⟨1, 2, 3⟩, ⟨4, 5, 6⟩))] =
      ["setAttr joint1.tx 1", "setAttr joint1.ty 2", "setAttr joint1.tz 3",
       "setAttr joint1.rx 4", "setAttr joint1.rz 6", "dgdirty joint1"] :=
  ⟨((apply_pose_channel_commands testAttrsA).1
      [("joint1", (⟨1, 2, 3⟩, ⟨4, 5, 6⟩))]).trans (by decide),
   ((apply_pose_channel_commands testAttrsA).2.1
      [("joint1", (⟨1, 2, 3⟩, ⟨4, 5, 6⟩))]).trans (by decide)⟩

/-! ## C6: one entry per distinct keyframe time, in increasing order -/

/-- The capture loop never fails when each step succeeds, and collects one
entry per frame in order. -/
theorem rangeLoop_pure {E : Type} (g : ℚ → Pose) (frames : List ℚ) :
    rangeLoop (E := E) (fun f => .ok (g f)) frames =
      .ok (frames.map (fun f => ⟨f, g f⟩)) := by
  induction frames with
  | nil => rfl
  | cons f fs ih => simp [rangeLoop, ih]

/-- `sorted(set(l))` is strictly increasing. -/
theorem sortedSet_sorted_lt (l : List ℚ) :
    List.Sorted (· < ·) (sortedSet l) := by
  have hs : List.Sorted (· ≤ ·) (sortedSet l) :=
    List.sorted_insertionSort (· ≤ ·) l.dedup
  have hn : (sortedSet l).Nodup :=
    ((List.perm_insertionSort (· ≤ ·) l.dedup).nodup_iff).2 l.nodup_dedup
  exact hs.lt_of_le hn

/-- `sorted(set(l))` has the same members as `l`. -/
theorem sortedSet_mem (l : List ℚ) (f : ℚ) : f ∈ sortedSet l ↔ f ∈ l := by
  unfold sortedSet
  rw [(List.perm_insertionSort (fun a b => a ≤ b) l.dedup).mem_iff]
  exact List.mem_dedup

/-- **C6.** `get_pose_range` returns the empty list when no transforms are
given and none are selected; when the keyframe query raises or returns no
key times it also returns the empty list; otherwise it returns exactly one
{frame, pose} entry per distinct keyframe time reported for the range, in
strictly increasing frame order, each carrying the pose captured at that
frame. -/
theorem get_pose_range_frames (api : MayaApi) (s : Scene)
    (start_frame end_frame : ℚ) (transform : Option (List String)) :
    (resolveTransform s transform = [] →
      getPoseRange api s start_frame end_frame transform = []) ∧
    (∀ t, resolveTransform s transform = t → t ≠ [] →
      (s.keyframeQuery t (start_frame, end_frame) = .error () →
        getPoseRange api s start_frame end_frame transform = []) ∧
      (s.keyframeQuery t (start_frame, end_frame) = .ok none →
        getPoseRange api s start_frame end_frame transform = []) ∧
      (∀ ks, s.keyframeQuery t (start_frame, end_frame) = .ok (some ks) →
        getPoseRange api s start_frame end_frame transform =
          (sortedSet ks).map
            (fun f => ⟨f, makePoseParameter api (s.attrsAt f) t⟩) ∧
        List.Sorted (· < ·)
          ((getPoseRange api s start_frame end_frame transform).map
            FramePose.frame) ∧
        (∀ f, f ∈ (getPoseRange api s start_frame end_frame transform).map
            FramePose.frame ↔ f ∈ ks))) := by
  constructor
  · intro hres
    simp [getPoseRange, getPoseRangeRun, hres]
  · intro t hres hne
    have hlen : (t.length = 0) = False := by
      simpa using fun h => hne (List.length_eq_zero.1 h)
    refine ⟨?_, ?_, ?_⟩
    · intro hq
      simp [getPoseRange, getPoseRangeRun, hres, hlen, hq, poseRangeStep]
    · intro hq
      simp [getPoseRange, getPoseRangeRun, hres, hlen, hq, poseRangeStep]
    · intro ks hq
      have hmain : getPoseRange api s start_frame end_frame transform =
          (sortedSet ks).map
            (fun f => ⟨f, makePoseParameter api (s.attrsAt f) t⟩) := by
        by_cases hzero : (sortedSet ks).length = 0
        · rw [List.length_eq_zero] at hzero
          simp [getPoseRange, getPoseRangeRun, hres, hlen, hq, hzero]
        · simp only [getPoseRange, getPoseRangeRun, hres, hlen, hq]
          simp only [hzero, if_false]
          simp only [poseRangeStep]
          rw [rangeLoop_pure (fun f => makePoseParameter api (s.attrsAt f) t)]
      refine ⟨hmain, ?_, ?_⟩
      · rw [hmain, List.map_map]
        have : (FramePose.frame ∘ fun f =>
            FramePose.mk f (makePoseParameter api (s.attrsAt f) t)) = id := rfl
        rw [this, List.map_id]
        exact sortedSet_sorted_lt ks
      · intro f
        rw [hmain, List.map_map]
        have : (FramePose.frame ∘ fun f =>
            FramePose.mk f (makePoseParameter api (s.attrsAt f) t)) = id := rfl
        rw [this, List.map_id]
        exact sortedSet_mem ks f

/-- Evaluation witness for C6: key times [12, 10, 12, 11] produce one entry
per distinct frame, at frames 10, 11, 12 in order. -/
theorem get_pose_range_frames_witness :
    getPoseRange testApi testScene 0 20 (some []) =
      [⟨10, [("grp|L_arm", ⟨⟨1, 2, 3⟩, ⟨117/125, 0, 0, -44/125⟩⟩)]⟩,
       ⟨11, [("grp|L_arm", ⟨⟨1, 2, 3⟩, ⟨117/125, 0, 0, -44/125⟩⟩)]⟩,
       ⟨12, [("grp|L_arm", ⟨⟨1, 2, 3⟩, ⟨117/125, 0, 0, -44/125⟩⟩)]⟩] :=
  (((get_pose_range_frames testApi testScene 0 20 (some [])).2
      ["grp|L_arm"] rfl (by decide)).2.2 [12, 10, 12, 11] rfl).1.trans
    (by
      have hs : sortedSet [12, 10, 12, 11] = [10, 11, 12] := by rfl
      rw [hs]
      norm_num [makePoseParameter, convertQuaternion, orientQuat, testApi,
        testScene, testNodeC, Quat.mul_def, Quat.mul, Quat.one])

/-! ## C9: timeline restoration and visit order -/

instance : IsTotal SeqEntry (fun a b => seqKey a ≤ seqKey b) :=
  ⟨fun a b => le_total (seqKey a) (seqKey b)⟩

instance : IsTrans SeqEntry (fun a b => seqKey a ≤ seqKey b) :=
  ⟨fun _ _ _ hab hbc => le_trans hab hbc⟩

/-- **C9.** `get_pose_range` and `apply_pose_sequence` leave the scene's
current time where it was before the call on every path, including the paths
where the per-frame capture or apply step raises (`step` / `applyStep` may
return `.error`): the `finally` blocks restore the saved time.
`apply_pose_sequence` visits the stored poses in a permutation of the input
that is ascending in `seqKey` (the frame value, with a missing frame
sorting as 0). -/
theorem time_restore_and_visit_order {E : Type}
    (step : ℚ → List String → Except E Pose)
    (applyStep : SeqEntry → Except E Unit) (s : Scene)
    (start_frame end_frame : ℚ) (transform : Option (List String))
    (poses : List SeqEntry) :
    (getPoseRangeRun step s start_frame end_frame transform).2 =
      s.currentTime ∧
    (applyPoseSequenceRun applyStep s poses).2.1 = s.currentTime ∧
    ((applyPoseSequenceRun applyStep s poses).2.2).Perm poses ∧
    List.Pairwise (fun e1 e2 => seqKey e1 ≤ seqKey e2)
      ((applyPoseSequenceRun applyStep s poses).2.2) := by
  refine ⟨?_, ?_, ?_, ?_⟩
  · unfold getPoseRangeRun
    dsimp only
    split
    · rfl
    · rcases hq : s.keyframeQuery (resolveTransform s transform)
        (start_frame, end_frame) with e | ko
      · rfl
      · cases ko with
        | none => rfl
        | some ks => dsimp only; split <;> rfl
  · unfold applyPoseSequenceRun
    split <;> rfl
  · unfold applyPoseSequenceRun
    split
    · rename_i hlen
      have : poses = [] := List.length_eq_zero.1 hlen
      rw [this]
    · exact List.perm_insertionSort (fun a b => seqKey a ≤ seqKey b) poses
  · unfold applyPoseSequenceRun
    split
    · exact List.Pairwise.nil
    · exact List.sorted_insertionSort (fun a b => seqKey a ≤ seqKey b) poses

/-! ## C7: what get_pose captures -/

/-- Looking up `n` in `{m: g(m) for m in l}` yields `g(n)` whenever `n ∈ l`. -/
theorem lookup_map_self {α : Type} (g : String → α) (l : List String)
    (n : String) (h : n ∈ l) :
    (l.map (fun m => (m, g m))).lookup n = some (g n) := by
  induction l with
  | nil => simp at h
  | cons a t ih =>
    simp only [List.map_cons, List.lookup]
    by_cases ha : n = a
    · subst ha
      simp
    · have h1 : (n == a) = false := by simpa using ha
      rw [h1]
      exact ih (by
        rcases List.mem_cons.1 h with h | h
        · exact absurd h ha
        · exact h)

/-- The pose parameter `_make_pose_parameter` builds for one node. -/
def capturedParam (api : MayaApi) (attrs : String → TransformNode)
    (n : String) : PoseParam :=
  ⟨(attrs n).translate,
   convertQuaternion api (attrs n).rotateAxis (attrs n).rotateOrder *
     convertQuaternion api (attrs n).rotate (attrs n).rotateOrder *
     orientQuat api (attrs n)⟩

/-- **C7.** `get_pose` with an empty transform list captures the currently
selected transforms; every selected node is mapped to its translate triple
and the quaternion product rotateAxisQ * rotateQ * jointOrientQ, each Euler
triple converted with the node's rotateOrder, and jointOrientQ the identity
when the node has no jointOrient attribute. -/
theorem get_pose_selected (api : MayaApi) (s : Scene) (n : String)
    (hmem : n ∈ s.selection) :
    getPose api s [] = makePoseParameter api s.attrs s.selection ∧
    (getPose api s []).lookup n =
      some ⟨(s.attrs n).translate,
        convertQuaternion api (s.attrs n).rotateAxis (s.attrs n).rotateOrder *
          convertQuaternion api (s.attrs n).rotate (s.attrs n).rotateOrder *
          (match (s.attrs n).jointOrient with
           | some jo => convertQuaternion api jo (s.attrs n).rotateOrder
           | none => Quat.one)⟩ := by
  constructor
  · rfl
  · have hmk : getPose api s [] =
        s.selection.map (fun m => (m, capturedParam api s.attrs m)) := rfl
    rw [hmk, lookup_map_self (capturedParam api s.attrs) s.selection n hmem]
    rfl

/-- Evaluation witness for C7 at the concrete test scene. -/
theorem get_pose_selected_witness :
    getPose testApi testScene [] =
      makePoseParameter testApi testScene.attrs testScene.selection ∧
    (getPose testApi testScene []).lookup "grp|L_arm" =
      some ⟨⟨1, 2, 3⟩, ⟨117/125, 0, 0, -44/125⟩⟩ :=
  ⟨(get_pose_selected testApi testScene "grp|L_arm" (by decide)).1,
   ((get_pose_selected testApi testScene "grp|L_arm" (by decide)).2).trans
     (by norm_num [convertQuaternion, orientQuat, testApi, testScene,
       testNodeC, Scene.attrs, Quat.mul_def, Quat.mul, Quat.one])⟩

/-! ## C8: pose serialization round trip -/

/-- A dict-comprehension style fold with unique keys is a plain map. -/
theorem fold_dinsert_map {α : Type} (h : String × α → α)
    (l : List (String × α)) (hkeys : (l.map (fun p => p.1)).Nodup) :
    l.foldl (fun acc p => dinsert p.1 (h p) acc) [] =
      l.map (fun p => (p.1, h p)) := by
  have hmap := filterMap_some_map (fun p : String × α => (p.1, h p)) l
  have := foldl_dinsert_eq (fun p : String × α => some (p.1, h p)) l []
    (by intro p _ q _ r hr; simp at hr)
    (by rw [hmap, List.map_map]; exact hkeys)
  rw [hmap] at this
  simpa using this

/-- Round trip of a single entry with a 3-component translate and an
`MQuaternion` rotate. -/
theorem roundtrip_param (e : GuiParam) (l : List ℚ) (q : Quat)
    (htl : e.translate = some l) (hlen : l.length = 3)
    (hrq : e.rotate = RotVal.quat q) :
    deserializeParam (serializeParam e) = e := by
  rcases e with ⟨tr, rv⟩
  simp only at htl hrq
  subst htl
  subst hrq
  simp [serializeParam, deserializeParam, pyOrList, hlen]

/-- **C8.** For a pose dict whose entries carry a 3-component translate and
an `MQuaternion` rotate, deserializing the serialized pose restores it
exactly: same node set in order, same translate components, same quaternion
components. -/
theorem serialize_roundtrip (pose : List (String × GuiParam))
    (hkeys : (pose.map (fun p => p.1)).Nodup)
    (ht : ∀ p ∈ pose, ∃ l, p.2.translate = some l ∧ l.length = 3)
    (hr : ∀ p ∈ pose, ∃ q, p.2.rotate = RotVal.quat q) :
    deserializePoseData (serializePoseData pose) = pose := by
  have h1 : serializePoseData pose =
      pose.map (fun p => (p.1, serializeParam p.2)) :=
    fold_dinsert_map (fun p => serializeParam p.2) pose hkeys
  have h2 : deserializePoseData (pose.map (fun p => (p.1, serializeParam p.2))) =
      (pose.map (fun p => (p.1, serializeParam p.2))).map
        (fun p => (p.1, deserializeParam p.2)) := by
    refine fold_dinsert_map (fun p => deserializeParam p.2) _ ?_
    rw [List.map_map]
    exact hkeys
  rw [h1, h2, List.map_map]
  have h3 : ∀ p ∈ pose,
      ((fun p => (p.1, deserializeParam p.2)) ∘
        fun p => (p.1, serializeParam p.2)) p = p := by
    intro p hp
    obtain ⟨l, htl, hlen⟩ := ht p hp
    obtain ⟨q, hrq⟩ := hr p hp
    have := roundtrip_param p.2 l q htl hlen hrq
    simp [Function.comp, this]
  rw [List.map_congr_left h3]
  simp

/-- Evaluation witness for C8 on a two-node pose. -/
theorem serialize_roundtrip_witness :
    deserializePoseData (serializePoseData
      [("joint1", ⟨some [1, 2, 3], RotVal.quat ⟨4, 5, 6, 7⟩⟩),
       ("joint2", ⟨some [0, 0, 0], RotVal.quat ⟨0, 0, 0, 1⟩⟩)]) =
      [("joint1", ⟨some [1, 2, 3], RotVal.quat ⟨4, 5, 6, 7⟩⟩),
       ("joint2", ⟨some [0, 0, 0], RotVal.quat ⟨0, 0, 0, 1⟩⟩)] :=
  serialize_roundtrip
    [("joint1", ⟨some [1, 2, 3], RotVal.quat ⟨4, 5, 6, 7⟩⟩),
     ("joint2", ⟨some [0, 0, 0], RotVal.quat ⟨0, 0, 0, 1⟩⟩)]
    (by decide)
    (by
      intro p hp
      simp only [List.mem_cons, List.not_mem_nil, or_false] at hp
      rcases hp with rfl | rfl
      · exact ⟨[1, 2, 3], rfl, rfl⟩
      · exact ⟨[0, 0, 0], rfl, rfl⟩)
    (by
      intro p hp
      simp only [List.mem_cons, List.not_mem_nil, or_false] at hp
      rcases hp with rfl | rfl
      · exact ⟨⟨4, 5, 6, 7⟩, rfl⟩
      · exact ⟨⟨0, 0, 0, 1⟩, rfl⟩)

/-! ## C10: option file loading -/

/-- **C10 (counterexample).** `OptionFile.load` can raise, contradicting
the claim that it never does: a file whose content parses as JSON but is
not an object (e.g. `null` or `[1, 2]`) reaches `data.get("version")`
outside the `try` and raises `AttributeError`; and `os.makedirs` failing in
`_check_file_path` raises `OSError` before the file is even opened. -/
theorem option_file_load_raises_counterexample :
    optionFileLoad "1.0.2" true OptionFileState.parsedNonObject =
      .error PyError.attributeError ∧
    optionFileLoad "1.0.2" false OptionFileState.missing =
      .error PyError.osError :=
  ⟨rfl, rfl⟩

/-- **C10 (amended).** Provided the preferences directory can be created
and the file's JSON content, when parseable, is an object, `OptionFile.load`
never raises: it yields `none` when the option file is missing, when the
file cannot be parsed as JSON, and when the stored "version" differs from
the tool's current version (including a missing "version" key); only for a
parsed object whose version matches does it yield the parsed data. -/
theorem option_file_load_guarded (current_version : String) :
    optionFileLoad current_version true OptionFileState.missing = .ok none ∧
    optionFileLoad current_version true OptionFileState.unreadable =
      .ok none ∧
    (∀ data, optionVersionOf data ≠ some current_version →
      optionFileLoad current_version true (OptionFileState.parsedObject data) =
        .ok none) ∧
    (∀ data, optionVersionOf data = some current_version →
      optionFileLoad current_version true (OptionFileState.parsedObject data) =
        .ok (some data)) ∧
    (∀ fs, fs ≠ OptionFileState.parsedNonObject →
      ∃ result, optionFileLoad current_version true fs = .ok result) := by
  refine ⟨rfl, rfl, ?_, ?_, ?_⟩
  · intro data hver
    simp [optionFileLoad, hver]
  · intro data hver
    simp [optionFileLoad, hver]
  · intro fs hfs
    cases fs with
    | missing => exact ⟨none, rfl⟩
    | unreadable => exact ⟨none, rfl⟩
    | parsedNonObject => exact absurd rfl hfs
    | parsedObject data =>
      by_cases hver : optionVersionOf data = some current_version
      · exact ⟨some data, by simp [optionFileLoad, hver]⟩
      · exact ⟨none, by simp [optionFileLoad, hver]⟩

/-- Evaluation witness for the amended C10: a matching version loads, a
stale version and a missing version key yield `none`, and every guarded
state returns without raising. -/
theorem option_file_load_guarded_witness :
    optionFileLoad "1.0.2" true (OptionFileState.parsedObject
      [("version", "1.0.2"), ("mirror", "x")]) =
      .ok (some [("version", "1.0.2"), ("mirror", "x")]) ∧
    optionFileLoad "1.0.2" true (OptionFileState.parsedObject
      [("version", "0.9")]) = .ok none ∧
    optionFileLoad "1.0.2" true (OptionFileState.parsedObject
      [("mirror", "x")]) = .ok none ∧
    (∃ result, optionFileLoad "1.0.2" true OptionFileState.missing =
      .ok result) :=
  ⟨(option_file_load_guarded "1.0.2").2.2.2.1
      [("version", "1.0.2"), ("mirror", "x")] (by decide),
   (option_file_load_guarded "1.0.2").2.2.1 [("version", "0.9")] (by decide),
   (option_file_load_guarded "1.0.2").2.2.1 [("mirror", "x")] (by decide),
   (option_file_load_guarded "1.0.2").2.2.2.2 OptionFileState.missing
     (by decide)⟩

/-! ## C1: the Euler write-back ignores the node's rotate order -/

/-- Componentwise negation: `q` and `q.neg` represent the same rotation
(quaternion double cover); anything differing from both represents a
different rotation. -/
def Quat.neg (q : Quat) : Quat := ⟨-q.x, -q.y, -q.z, -q.w⟩

/-- Modelled from the spec: the Euler-with-rotation-order to quaternion
conversion (`MEulerRotation.asQuaternion`) that `_convert_quaternion`
wraps, which is Maya API code outside `src/`.  Per the API, the
rotate-order codes are 0 = xyz, 1 = yzx, 2 = zxy, 3 = xzy, 4 = yxz,
5 = zyx, the named axes being applied left to right; the quaternion of a
single-axis rotation carries (cos θ/2, sin θ/2), supplied here by the
half-angle table `cs` (degree label ↦ half-angle cosine and sine) so the
development stays in ℚ. -/
def eulerQuat (cs : ℚ → ℚ × ℚ) (v : Vec3) (order : ℕ) : Quat :=
  let qxr : Quat := ⟨(cs v.x).2, 0, 0, (cs v.x).1⟩
  let qyr : Quat := ⟨0, (cs v.y).2, 0, (cs v.y).1⟩
  let qzr : Quat := ⟨0, 0, (cs v.z).2, (cs v.z).1⟩
  match order with
  | 0 => qxr * qyr * qzr
  | 1 => qyr * qzr * qxr
  | 2 => qzr * qxr * qyr
  | 3 => qxr * qzr * qyr
  | 4 => qyr * qxr * qzr
  | _ => qzr * qyr * qxr

/-- Half-angle table for the failing input: the degree label 0 is the zero
angle; every other label stands for the angle 2·atan(3/4) ≈ 73.74°, whose
half-angle cosine and sine are 4/5 and 3/5. -/
def halfAngles74 : ℚ → ℚ × ℚ :=
  fun t => if t = 0 then (1, 0) else (4/5, 3/5)

/-- The failing node: rotate order yxz (code 4), rotation of ≈ 73.74° about
both x and y, no axis offset, no jointOrient, nothing locked. -/
def node74 : TransformNode where
  translate := ⟨0, 0, 0⟩
  rotate := ⟨74, 74, 0⟩
  rotateOrder := 4
  rotateAxis := ⟨0, 0, 0⟩
  jointOrient := none
  lockTranslateX := false
  lockTranslateY := false
  lockTranslateZ := false
  lockRotateX := false
  lockRotateY := false
  lockRotateZ := false

def attrs74 : String → TransformNode := fun _ => node74

/-- The Maya model at the failing input: `conv` is the order-table
conversion over `halfAngles74`. -/
def api74 : MayaApi where
  conv := fun v o => eulerQuat halfAngles74 v o
  asEuler := fun q => ⟨q.x, q.y, q.z⟩
  deg := fun r => r

/-- **C1 (code bug).** `convert_matrix` writes
`(inv_axis * rot_qua * inv_orient).asEulerRotation()` — whose angles are
always in xyz order — straight into rx/ry/rz without `reorderIt(order)`,
and Maya interprets those channels in the node's own rotate order.  At the
failing input (`node74`, rotate order yxz): capture stores the yxz reading
of the rotate channels; and the xyz reading of a channel triple — the
meaning of the written values — differs from the node's yxz reading of the
same triple, and not merely by quaternion sign, so the written Euler
realizes a different rotation than the captured one.  The pose is recovered
only for rotateOrder = xyz, while the claim (and the spec's "arbitrary
rotation order") demands every order. -/
theorem capture_misapplied_for_non_xyz_order :
    makePoseParameter api74 attrs74 ["joint1"] =
      [("joint1", ⟨⟨0, 0, 0⟩, ⟨12/25, 12/25, -9/25, 16/25⟩⟩)] ∧
    eulerQuat halfAngles74 ⟨74, 74, 0⟩ 0 = ⟨12/25, 12/25, 9/25, 16/25⟩ ∧
    eulerQuat halfAngles74 ⟨74, 74, 0⟩ 4 ≠
      eulerQuat halfAngles74 ⟨74, 74, 0⟩ 0 ∧
    eulerQuat halfAngles74 ⟨74, 74, 0⟩ 4 ≠
      (eulerQuat halfAngles74 ⟨74, 74, 0⟩ 0).neg := by
  refine ⟨?_, ?_, ?_, ?_⟩
  · norm_num [makePoseParameter, convertQuaternion, orientQuat, api74,
      attrs74, node74, eulerQuat, halfAngles74, Quat.mul_def, Quat.mul,
      Quat.one]
  · norm_num [eulerQuat, halfAngles74, Quat.mul_def, Quat.mul]
  · norm_num [eulerQuat, halfAngles74, Quat.mul_def, Quat.mul]
  · norm_num [eulerQuat, halfAngles74, Quat.mul_def, Quat.mul, Quat.neg]
